import Mathlib

/-!
Shallow embedding of the `iview` image viewer (`main.go`) and proofs of the
specification claims about it.

The program is a thin event-loop over a windowing toolkit.  We embed:

* `filepathExt` / `filepathJoin` — models of Go's `filepath.Ext` / `filepath.Join`
  as used on directory entry names;
* `dirImages`, `findFiles` — the argument-to-file-list expansion;
* `decodeImages` — the fan-out/fan-in decode step, serialized in input order,
  which is exactly the order in which the main task reads the per-file result
  channels (one dedicated channel per file, read in input order);
* `runStartup` — the startup control-flow of `init` + `main` up to entering the
  event loop, with every exit site (`usage()` / `log.Fatal`) made explicit;
* `loopStep` — the event-loop dispatch on the view state (current image index,
  pan origin, drag flag, last mouse position).

Window-system effects (draw/upload/publish calls, logging) have no bearing on
the claims and are not part of the state; fallible external calls
(`os.Stat`, `os.Open`+`image.Decode`, `os.Create`, `NewWindow`, `NewBuffer`)
are modelled by environment fields recording success or failure.
-/

set_option autoImplicit false

/-- Model of `image.Point`: a pair of machine integers. -/
structure Point where
  x : Int
  y : Int
deriving DecidableEq, Repr

/-- Componentwise addition of points. -/
def Point.add (a b : Point) : Point := ⟨a.x + b.x, a.y + b.y⟩

/-- Componentwise subtraction of points. -/
def Point.sub (a b : Point) : Point := ⟨a.x - b.x, a.y - b.y⟩

instance : Add Point := ⟨Point.add⟩

instance : Sub Point := ⟨Point.sub⟩

/-- Model of `image.Rectangle`: min and max corner points. -/
structure Rectangle where
  min : Point
  max : Point
deriving DecidableEq, Repr

/-- Model of a decoded `image.Image`: only its bounds are ever consulted
by this program (for auto-resize and the Z-key resize). -/
structure Image where
  bounds : Rectangle
deriving DecidableEq, Repr

/-- Model of Go's `filepath.Ext`, scanning the reversed character list:
the extension is the suffix beginning at the final dot in the final
slash-separated element; empty if there is no dot before a separator.
`acc` holds the characters already passed, in original order. -/
def extRevScan : List Char → List Char → String
  | [], _ => ""
  | c :: rest, acc =>
    if c = '/' then ""
    else if c = '.' then String.mk ('.' :: acc)
    else extRevScan rest (c :: acc)

/-- `filepath.Ext path`: suffix from the final dot of the final element. -/
def filepathExt (path : String) : String :=
  extRevScan path.data.reverse []

/-- Model of `filepath.Join dir f` for a clean directory path and a directory
entry name (as produced by `Readdirnames`, never empty and never containing a
separator): the two joined by the path separator. -/
def filepathJoin (dir f : String) : String :=
  dir ++ "/" ++ f

/-- The file-system facts the program consults.
`stat f` is `none` when `os.Stat` fails, `some true` for a directory and
`some false` for a regular file.  `readDirNames d` is the entry list
returned by `Open`+`Readdirnames` (empty when they fail, as the code
discards both errors). -/
structure FileSys where
  stat : String → Option Bool
  readDirNames : String → List String

/-- The filter-and-join loop body of `dirImages`: keep each entry whose name
has a non-empty extension, joined with the directory path. -/
def dirImagesGo (dir : String) : List String → List String
  | [] => []
  | f :: rest =>
    if filepathExt f != "" then filepathJoin dir f :: dirImagesGo dir rest
    else dirImagesGo dir rest

/-- `dirImages dir`: expand a directory argument to the entries with a
non-empty extension, each joined with the directory path. -/
def dirImages (fsys : FileSys) (dir : String) : List String :=
  dirImagesGo dir (fsys.readDirNames dir)

/-- `findFiles args`: for each argument, a failed stat logs and skips it,
a directory expands via `dirImages`, a regular file is kept as-is. -/
def findFiles (fsys : FileSys) : List String → List String
  | [] => []
  | f :: rest =>
    match fsys.stat f with
    | none => findFiles fsys rest
    | some true => dirImages fsys f ++ findFiles fsys rest
    | some false => f :: findFiles fsys rest

/-- Outcome of one decode task's `os.Open` + `image.Decode` on a file. -/
inductive DecodeOutcome where
  | openErr
  | decodeErr
  | ok (img : Image)
deriving DecidableEq, Repr

/-- Whether the decode task succeeded. -/
def DecodeOutcome.isOk : DecodeOutcome → Bool
  | .ok _ => true
  | _ => false

/-- The decoded image, when the decode task succeeded. -/
def DecodeOutcome.img : DecodeOutcome → Option Image
  | .ok im => some im
  | _ => none

/-- The `tmpImage` struct transported over each decode task's channel. -/
structure TmpImage where
  img : Image
  name : String
deriving DecidableEq, Repr

/-- What one decode task delivers on its dedicated channel: `none` when the
channel is closed after a failed open or decode, `some` the `tmpImage`
carrying the image and the file's base name otherwise. -/
def decodeResult (basename : String → String) (decode : String → DecodeOutcome)
    (fName : String) : Option TmpImage :=
  match decode fName with
  | .openErr => none
  | .decodeErr => none
  | .ok im => some ⟨im, basename fName⟩

/-- The fan-in loop of `decodeImages`: read each channel in input order,
appending name and image on success and skipping closed channels. -/
def collectImages : List (Option TmpImage) → List String × List Image
  | [] => ([], [])
  | none :: rest => collectImages rest
  | some t :: rest =>
    let p := collectImages rest
    (t.name :: p.1, t.img :: p.2)

/-- `decodeImages imageFiles`: one decode task per file, one dedicated channel
per task, channels read in input order by the main task. -/
def decodeImages (basename : String → String) (decode : String → DecodeOutcome)
    (imageFiles : List String) : List String × List Image :=
  collectImages (imageFiles.map (decodeResult basename decode))

/-- How a run of `init` + `main` ends before (or instead of) the event loop:
`usageExit` prints the usage message (via `usage()`) and exits with status 1;
`fatalExit` is `log.Fatal`, which prints the log message and exits with
status 1 without printing the usage message; `running` enters the event loop. -/
inductive StartOutcome where
  | usageExit
  | fatalExit
  | running
deriving DecidableEq, Repr

/-- The environment a startup run consults: flag values, whether
`os.Create(flagProfile)` succeeds, the positional arguments, the file system,
and whether `NewWindow` / `NewBuffer` succeed. -/
structure Env where
  flagWidth : Int
  flagHeight : Int
  flagProfile : String
  profileCreateOk : Bool
  args : List String
  fsys : FileSys
  newWindowOk : Bool
  newBufferOk : Bool

/-- Startup control flow of `init` + `main`, in program order:
width/height check (`log.Fatal`), profile-file creation (`log.Fatal` on
failure), empty-argument check (`usage()`), decode, empty-image check
(`log.Fatal`), window creation then buffer creation (`log.Fatal` on error
from `newWindow`). -/
def runStartup (basename : String → String) (decode : String → DecodeOutcome)
    (env : Env) : StartOutcome :=
  if env.flagWidth = 0 ∨ env.flagHeight = 0 then .fatalExit
  else if env.flagProfile.length > 0 ∧ env.profileCreateOk = false then .fatalExit
  else if env.args.length = 0 then .usageExit
  else
    let imgs := (decodeImages basename decode (findFiles env.fsys env.args)).2
    if imgs.length = 0 then .fatalExit
    else if env.newWindowOk = false then .fatalExit
    else if env.newBufferOk = false then .fatalExit
    else .running

/-- The view state mutated by the event loop: the local index `i` of `main`
and the `orig`, `pan`, `mouse` fields of the `window` struct. -/
structure ViewState where
  i : Int
  orig : Point
  pan : Bool
  mouse : Point
deriving DecidableEq, Repr

/-- The initial view state: `var i int` is zero and the `window` struct's
`orig`, `pan`, `mouse` fields are their zero values. -/
def initState : ViewState :=
  ⟨0, ⟨0, 0⟩, false, ⟨0, 0⟩⟩

/-- `mouse.Direction` of a mouse event. -/
inductive MouseDir where
  | dirPress
  | dirRelease
  | dirNone
  | dirStep
deriving DecidableEq, Repr

/-- Mouse button of a mouse event (only left is ever distinguished). -/
inductive MouseButton where
  | left
  | middle
  | right
  | otherButton
deriving DecidableEq, Repr

/-- `key.Direction` of a key event. -/
inductive KeyDir where
  | dirPress
  | dirRelease
  | dirNone
deriving DecidableEq, Repr

/-- The key codes the loop distinguishes; `otherCode` covers all the rest. -/
inductive KeyCode where
  | escape
  | q
  | rightArrow
  | leftArrow
  | r
  | z
  | otherCode
deriving DecidableEq, Repr

/-- The events the loop's type switch distinguishes.  Mouse coordinates are
the already-truncated `int(e.X)`, `int(e.Y)`.  `paintEv` records the
`External` field.  `otherEv` is the default case. -/
inductive Event where
  | mouseEv (dir : MouseDir) (button : MouseButton) (x y : Int)
  | keyEv (code : KeyCode) (dir : KeyDir)
  | paintEv (isExternal : Bool)
  | sizeEv
  | uploadedEv
  | errorEv
  | otherEv
deriving DecidableEq, Repr

/-- How one iteration of the event loop ends: keep looping with a new view
state, `return` from the loop (Escape/Q), or `log.Fatal` (buffer
re-creation failure on a size event). -/
inductive LoopOutcome where
  | cont (st : ViewState)
  | quit
  | fatal
deriving DecidableEq, Repr

/-- The state after an outcome, falling back to `d` when the loop did not
continue. -/
def LoopOutcome.stateD (o : LoopOutcome) (d : ViewState) : ViewState :=
  match o with
  | .cont st => st
  | _ => d

/-- One iteration of the event-loop switch in `main`.  `bufOk` records
whether `newBuffer` succeeds on a size event.  Effects (fill, display,
`Send(paint.Event{})`, `Resize`) do not touch the view state and are not
modelled; the Z-key resize only resets `orig`. -/
def loopStep (imgs : List Image) (bufOk : Bool) (st : ViewState) :
    Event → LoopOutcome
  | .mouseEv dir button x y =>
    match dir with
    | .dirPress =>
      if button = .left then .cont { st with pan := true, mouse := ⟨x, y⟩ }
      else .cont st
    | .dirRelease =>
      if button = .left then .cont { st with pan := false, mouse := ⟨0, 0⟩ }
      else .cont st
    | .dirNone =>
      if st.pan then
        .cont { st with
                  orig := ⟨st.orig.x + (x - st.mouse.x),
                           st.orig.y + (y - st.mouse.y)⟩,
                  mouse := ⟨x, y⟩ }
      else .cont st
    | .dirStep => .cont st
  | .keyEv code dir =>
    match code with
    | .escape => .quit
    | .q => .quit
    | .rightArrow =>
      if dir = .dirPress then
        .cont { st with
                  i := (if st.i = (imgs.length : Int) - 1 then -1 else st.i) + 1,
                  orig := ⟨0, 0⟩ }
      else .cont st
    | .leftArrow =>
      if dir = .dirPress then
        .cont { st with
                  i := (if st.i = 0 then (imgs.length : Int) else st.i) - 1,
                  orig := ⟨0, 0⟩ }
      else .cont st
    | .r => .cont st
    | .z =>
      if dir = .dirPress then .cont { st with orig := ⟨0, 0⟩ }
      else .cont st
    | .otherCode => .cont st
  | .paintEv _ => .cont st
  | .sizeEv => if bufOk then .cont st else .fatal
  | .uploadedEv => .cont st
  | .errorEv => .cont st
  | .otherEv => .cont st

/-- Run the loop over a list of events, threading the view state (keeping the
previous state on quit/fatal, which end the loop). -/
def runLoop (imgs : List Image) (bufOk : Bool) (st : ViewState) :
    List Event → ViewState
  | [] => st
  | e :: es => runLoop imgs bufOk ((loopStep imgs bufOk st e).stateD st) es

/-- A flag default value as registered in `init`. -/
inductive FlagDefault where
  | boolD (b : Bool)
  | intD (n : Int)
  | stringD (s : String)
deriving DecidableEq, Repr

/-- A command-line flag registration: its name and default. -/
structure FlagSpec where
  name : String
  default : FlagDefault
deriving DecidableEq, Repr

/-- The six flags registered in `init`, in registration order. -/
def iviewFlags : List FlagSpec :=
  [⟨"v", .boolD false⟩,
   ⟨"width", .intD 600⟩,
   ⟨"height", .intD 600⟩,
   ⟨"auto-resize", .boolD false⟩,
   ⟨"increment", .intD 20⟩,
   ⟨"profile", .stringD ""⟩]

/-! ## Concrete instances for witnesses and counterexamples -/

/-- A single concrete image. -/
def img1 : Image := ⟨⟨⟨0, 0⟩, ⟨2, 3⟩⟩⟩

/-- A file system in which stat fails on the path "bad", every other path is
a regular file, and directory reads are empty. -/
def fsysW : FileSys :=
  ⟨fun s => if s = "bad" then none else some false, fun _ => []⟩

/-- A decode function that fails on "bad.png" and decodes every other file
to `img1`. -/
def decodeW : String → DecodeOutcome :=
  fun s => if s = "bad.png" then .decodeErr else .ok img1

/-- A decode function on which every file decodes to `img1`. -/
def decodeOkW : String → DecodeOutcome :=
  fun _ => .ok img1

/-- An environment with a zero width flag and otherwise benign values. -/
def envWidthZero : Env :=
  { flagWidth := 0, flagHeight := 600, flagProfile := "",
    profileCreateOk := true, args := ["a.png"], fsys := fsysW,
    newWindowOk := true, newBufferOk := true }

/-- An environment with valid flags and no positional arguments. -/
def envNoArgs : Env :=
  { flagWidth := 600, flagHeight := 600, flagProfile := "",
    profileCreateOk := true, args := [], fsys := fsysW,
    newWindowOk := true, newBufferOk := true }

/-- An environment in which the profile flag is set but creating the profile
file fails, while every image decodes and window/buffer creation succeed. -/
def envProfileFail : Env :=
  { flagWidth := 600, flagHeight := 600, flagProfile := "prof.out",
    profileCreateOk := false, args := ["a.png"], fsys := fsysW,
    newWindowOk := true, newBufferOk := true }

/-- A view state mid-drag: the drag flag is set and the last recorded mouse
position is (1, 1). -/
def stDrag : ViewState := ⟨0, ⟨0, 0⟩, true, ⟨1, 1⟩⟩

/-! ## Helper lemmas -/

@[simp]
theorem Point.add_def (a b : Point) : a + b = ⟨a.x + b.x, a.y + b.y⟩ := rfl

@[simp]
theorem Point.sub_def (a b : Point) : a - b = ⟨a.x - b.x, a.y - b.y⟩ := rfl

theorem decodeImages_fst (basename : String → String)
    (decode : String → DecodeOutcome) :
    ∀ files : List String,
      (decodeImages basename decode files).1 =
        (files.filter fun f => (decode f).isOk).map basename := by
  intro files
  induction files with
  | nil => rfl
  | cons f rest ih =>
    simp only [decodeImages, List.map_cons, List.filter_cons] at *
    cases h : decode f <;>
      simp [decodeResult, collectImages, DecodeOutcome.isOk, h, ih]

theorem decodeImages_snd (basename : String → String)
    (decode : String → DecodeOutcome) :
    ∀ files : List String,
      (decodeImages basename decode files).2 =
        files.filterMap fun f => (decode f).img := by
  intro files
  induction files with
  | nil => rfl
  | cons f rest ih =>
    simp only [decodeImages, List.map_cons, List.filterMap_cons] at *
    cases h : decode f <;>
      simp [decodeResult, collectImages, DecodeOutcome.img, h, ih]

theorem length_filterMap_img (decode : String → DecodeOutcome) :
    ∀ files : List String,
      (files.filterMap fun f => (decode f).img).length =
        (files.filter fun f => (decode f).isOk).length := by
  intro files
  induction files with
  | nil => rfl
  | cons f rest ih =>
    simp only [List.filterMap_cons, List.filter_cons]
    cases h : decode f <;>
      simpa [DecodeOutcome.img, DecodeOutcome.isOk, h] using ih

theorem dirImagesGo_eq (dir : String) :
    ∀ fs : List String,
      dirImagesGo dir fs =
        (fs.filter fun f => filepathExt f != "").map (filepathJoin dir) := by
  intro fs
  induction fs with
  | nil => rfl
  | cons f rest ih =>
    simp only [dirImagesGo, List.filter_cons]
    by_cases h : filepathExt f != "" <;> simp [h, ih]

theorem findFiles_skip (fsys : FileSys) (f : String) (h : fsys.stat f = none) :
    ∀ xs ys : List String,
      findFiles fsys (xs ++ f :: ys) = findFiles fsys (xs ++ ys) := by
  intro xs ys
  induction xs with
  | nil => simp [findFiles, h]
  | cons x rest ih =>
    cases hx : fsys.stat x with
    | none => simp [findFiles, hx, ih]
    | some b => cases b <;> simp [findFiles, hx, ih]

theorem collectImages_skip_none :
    ∀ l1 l2 : List (Option TmpImage),
      collectImages (l1 ++ none :: l2) = collectImages (l1 ++ l2) := by
  intro l1 l2
  induction l1 with
  | nil => simp [collectImages]
  | cons o rest ih =>
    cases o <;> simp [collectImages, ih]

theorem loopStep_stateD_bounds (imgs : List Image) (bufOk : Bool)
    (st : ViewState) (e : Event) (h0 : 0 ≤ st.i)
    (h1 : st.i < (imgs.length : Int)) :
    0 ≤ ((loopStep imgs bufOk st e).stateD st).i ∧
      ((loopStep imgs bufOk st e).stateD st).i < (imgs.length : Int) := by
  cases e with
  | mouseEv dir button x y =>
    cases dir <;> simp only [loopStep] <;>
      first
      | (split <;> simp [LoopOutcome.stateD, h0, h1])
      | simp [LoopOutcome.stateD, h0, h1]
  | keyEv code dir =>
    cases code with
    | escape => exact ⟨h0, h1⟩
    | q => exact ⟨h0, h1⟩
    | rightArrow =>
      simp only [loopStep]
      split
      · simp only [LoopOutcome.stateD]
        refine ⟨?_, ?_⟩ <;> (split <;> omega)
      · exact ⟨h0, h1⟩
    | leftArrow =>
      simp only [loopStep]
      split
      · simp only [LoopOutcome.stateD]
        refine ⟨?_, ?_⟩ <;> (split <;> omega)
      · exact ⟨h0, h1⟩
    | r => exact ⟨h0, h1⟩
    | z =>
      simp only [loopStep]
      split <;> exact ⟨h0, h1⟩
    | otherCode => exact ⟨h0, h1⟩
  | paintEv b => exact ⟨h0, h1⟩
  | sizeEv =>
    simp only [loopStep]
    split <;> simp [LoopOutcome.stateD, h0, h1]
  | uploadedEv => exact ⟨h0, h1⟩
  | errorEv => exact ⟨h0, h1⟩
  | otherEv => exact ⟨h0, h1⟩

theorem runLoop_bounds (imgs : List Image) (bufOk : Bool) :
    ∀ (es : List Event) (st : ViewState), 0 ≤ st.i →
      st.i < (imgs.length : Int) →
      0 ≤ (runLoop imgs bufOk st es).i ∧
        (runLoop imgs bufOk st es).i < (imgs.length : Int) := by
  intro es
  induction es with
  | nil => intro st h0 h1; exact ⟨h0, h1⟩
  | cons e rest ih =>
    intro st h0 h1
    have h := loopStep_stateD_bounds imgs bufOk st e h0 h1
    exact ih _ h.1 h.2

theorem Point.add_sub_self (a m : Point) : a + (m - m) = a := by
  cases a
  cases m
  simp [Point.mk.injEq]

theorem Point.add_sub_cancel_mid (a m p q : Point) :
    a + (p - m) + (q - p) = a + (q - m) := by
  cases a
  cases m
  cases p
  cases q
  simp only [Point.add_def, Point.sub_def, Point.mk.injEq]
  omega

theorem runLoop_drag (imgs : List Image) (bufOk : Bool) (btn : MouseButton) :
    ∀ (ps : List Point) (st : ViewState), st.pan = true →
      runLoop imgs bufOk st (ps.map fun p => .mouseEv .dirNone btn p.x p.y) =
        { st with orig := st.orig + (ps.getLastD st.mouse - st.mouse),
                  mouse := ps.getLastD st.mouse } := by
  intro ps
  induction ps with
  | nil =>
    intro st h
    simp only [List.map_nil, runLoop, List.getLastD_nil]
    rw [Point.add_sub_self]
  | cons p rest ih =>
    intro st h
    have hstep : (loopStep imgs bufOk st (.mouseEv .dirNone btn p.x p.y)).stateD st =
        { st with orig := st.orig + (p - st.mouse), mouse := p } := by
      simp [loopStep, h, LoopOutcome.stateD]
    rw [List.map_cons]
    show runLoop imgs bufOk
        ((loopStep imgs bufOk st (.mouseEv .dirNone btn p.x p.y)).stateD st)
        (rest.map fun q => .mouseEv .dirNone btn q.x q.y) = _
    rw [hstep, ih _ (by simp [h]), List.getLastD_cons,
      Point.add_sub_cancel_mid]

/-! ## Claim theorems -/

/-- C1: for every input list of image file paths in which N files decode
successfully and M fail to open or decode, `decodeImages` returns exactly
N name/image pairs — the successfully decoded files, in their original input
order, with each failed file dropped (the fan-in reads the per-file result
channels in input order). -/
theorem decodeImages_inputOrder (basename : String → String)
    (decode : String → DecodeOutcome) (files : List String) :
    (decodeImages basename decode files).1 =
      (files.filter fun f => (decode f).isOk).map basename ∧
    (decodeImages basename decode files).2 =
      files.filterMap (fun f => (decode f).img) ∧
    (decodeImages basename decode files).1.length =
      (files.filter fun f => (decode f).isOk).length ∧
    (decodeImages basename decode files).2.length =
      (files.filter fun f => (decode f).isOk).length := by
  refine ⟨decodeImages_fst basename decode files,
    decodeImages_snd basename decode files, ?_, ?_⟩
  · rw [decodeImages_fst]
    exact List.length_map _ _
  · rw [decodeImages_snd]
    exact length_filterMap_img decode files

/-- C5: for every directory argument, `dirImages` returns exactly those
entries of the directory whose file name has a non-empty extension, each
joined with the directory path; entries with an empty extension are
excluded. -/
theorem dirImages_extensionFilter (fsys : FileSys) (dir : String) :
    dirImages fsys dir =
      ((fsys.readDirNames dir).filter fun f => filepathExt f != "").map
        (filepathJoin dir) :=
  dirImagesGo_eq dir (fsys.readDirNames dir)

/-- C6: every per-file failure is non-fatal and skips only that file: an
argument whose stat fails contributes no entries while the remaining
arguments are still processed (`findFiles`), and a file whose open or decode
fails contributes no image while the remaining files are still decoded
(`decodeImages`). -/
theorem perFileFailuresSkipOnlyThatFile :
    (∀ (fsys : FileSys) (f : String) (xs ys : List String),
       fsys.stat f = none →
       findFiles fsys (xs ++ f :: ys) = findFiles fsys (xs ++ ys)) ∧
    (∀ (basename : String → String) (decode : String → DecodeOutcome)
       (f : String) (xs ys : List String),
       (decode f).isOk = false →
       decodeImages basename decode (xs ++ f :: ys) =
         decodeImages basename decode (xs ++ ys)) := by
  constructor
  · intro fsys f xs ys h
    exact findFiles_skip fsys f h xs ys
  · intro b d f xs ys h
    have hres : decodeResult b d f = none := by
      cases hd : d f with
      | openErr => simp [decodeResult, hd]
      | decodeErr => simp [decodeResult, hd]
      | ok im =>
        rw [hd] at h
        simp [DecodeOutcome.isOk] at h
    simp only [decodeImages, List.map_append, List.map_cons, hres]
    exact collectImages_skip_none _ _

/-- Witness for C6 at concrete inputs: the stat failure on "bad" and the
decode failure on "bad.png" each drop exactly that file. -/
theorem perFileFailuresSkipOnlyThatFile_witness :
    (fsysW.stat "bad" = none ∧
       findFiles fsysW (["a"] ++ "bad" :: ["b"]) =
         findFiles fsysW (["a"] ++ ["b"])) ∧
    ((decodeW "bad.png").isOk = false ∧
       decodeImages id decodeW (["a.png"] ++ "bad.png" :: ["b.png"]) =
         decodeImages id decodeW (["a.png"] ++ ["b.png"])) :=
  ⟨⟨by decide,
    perFileFailuresSkipOnlyThatFile.1 fsysW "bad" ["a"] ["b"] (by decide)⟩,
   ⟨by decide,
    perFileFailuresSkipOnlyThatFile.2 id decodeW "bad.png" ["a.png"]
      ["b.png"] (by decide)⟩⟩

/-- C2: for a non-empty image list of length n, a right-arrow press at index
n-1 wraps the index to 0 and otherwise increments it; a left-arrow press at
index 0 wraps it to n-1 and otherwise decrements it. -/
theorem arrowKeyWraps (imgs : List Image) (bufOk : Bool) (st : ViewState)
    (hne : imgs ≠ []) :
    loopStep imgs bufOk st (.keyEv .rightArrow .dirPress) =
      .cont { st with
                i := if st.i = (imgs.length : Int) - 1 then 0 else st.i + 1,
                orig := ⟨0, 0⟩ } ∧
    loopStep imgs bufOk st (.keyEv .leftArrow .dirPress) =
      .cont { st with
                i := if st.i = 0 then (imgs.length : Int) - 1 else st.i - 1,
                orig := ⟨0, 0⟩ } := by
  constructor
  · simp only [loopStep, if_pos]
    rw [show ((if st.i = (imgs.length : Int) - 1 then (-1 : Int) else st.i) + 1) =
        if st.i = (imgs.length : Int) - 1 then 0 else st.i + 1 from by
      split <;> omega]
  · simp only [loopStep, if_pos]
    rw [show ((if st.i = 0 then (imgs.length : Int) else st.i) - 1) =
        if st.i = 0 then (imgs.length : Int) - 1 else st.i - 1 from by
      split <;> omega]

/-- Witness for C2 at a concrete one-image list and the initial state. -/
theorem arrowKeyWraps_witness :
    ([img1] ≠ ([] : List Image)) ∧
    (loopStep [img1] true initState (.keyEv .rightArrow .dirPress) =
       .cont { initState with
                 i := if initState.i = (([img1] : List Image).length : Int) - 1
                      then 0 else initState.i + 1,
                 orig := ⟨0, 0⟩ } ∧
     loopStep [img1] true initState (.keyEv .leftArrow .dirPress) =
       .cont { initState with
                 i := if initState.i = 0
                      then (([img1] : List Image).length : Int) - 1
                      else initState.i - 1,
                 orig := ⟨0, 0⟩ }) :=
  ⟨by decide, arrowKeyWraps [img1] true initState (by decide)⟩

/-- C8: with a non-empty image list of length n, the index satisfies
0 ≤ i < n initially and after every event handled by the loop (hence along
every event trace), so every indexing of the image list is in bounds. -/
theorem imageIndexInvariant (imgs : List Image) (bufOk : Bool)
    (hne : imgs ≠ []) :
    (0 ≤ initState.i ∧ initState.i < (imgs.length : Int)) ∧
    (∀ (st : ViewState) (e : Event), 0 ≤ st.i → st.i < (imgs.length : Int) →
       0 ≤ ((loopStep imgs bufOk st e).stateD st).i ∧
         ((loopStep imgs bufOk st e).stateD st).i < (imgs.length : Int)) ∧
    (∀ es : List Event,
       0 ≤ (runLoop imgs bufOk initState es).i ∧
         (runLoop imgs bufOk initState es).i < (imgs.length : Int)) ∧
    (∀ st : ViewState, 0 ≤ st.i → st.i < (imgs.length : Int) →
       (imgs[st.i.toNat]?).isSome) := by
  have hn : 0 < imgs.length := List.length_pos.mpr hne
  have hn0 : (0 : Int) < (imgs.length : Int) := by exact_mod_cast hn
  refine ⟨⟨le_refl 0, hn0⟩,
    fun st e h0 h1 => loopStep_stateD_bounds imgs bufOk st e h0 h1,
    fun es => runLoop_bounds imgs bufOk es initState (le_refl 0) hn0,
    fun st h0 h1 => ?_⟩
  have hlt : st.i.toNat < imgs.length := by omega
  simp [List.getElem?_eq_getElem hlt]

/-- Witness for C8 at a concrete one-image list. -/
theorem imageIndexInvariant_witness :
    ([img1] ≠ ([] : List Image)) ∧
    (0 ≤ initState.i ∧ initState.i < (([img1] : List Image).length : Int)) :=
  ⟨by decide, (imageIndexInvariant [img1] true (by decide)).1⟩

/-- C9: a left- or right-arrow press and the Z key reset the pan offset to
(0, 0); an R-key press and a paint event leave the pan offset unchanged. -/
theorem panOffsetResetAndPreserve (imgs : List Image) (bufOk : Bool)
    (st : ViewState) (ext : Bool) :
    ((loopStep imgs bufOk st (.keyEv .rightArrow .dirPress)).stateD st).orig
        = ⟨0, 0⟩ ∧
    ((loopStep imgs bufOk st (.keyEv .leftArrow .dirPress)).stateD st).orig
        = ⟨0, 0⟩ ∧
    ((loopStep imgs bufOk st (.keyEv .z .dirPress)).stateD st).orig = ⟨0, 0⟩ ∧
    ((loopStep imgs bufOk st (.keyEv .r .dirPress)).stateD st).orig
        = st.orig ∧
    ((loopStep imgs bufOk st (.paintEv ext)).stateD st).orig = st.orig := by
  refine ⟨?_, ?_, ?_, rfl, rfl⟩ <;> simp [loopStep, LoopOutcome.stateD]

/-- C10: a left press sets the drag flag and records the mouse position;
while the flag is set, each motion event adds the displacement from the last
recorded position to the pan offset and re-records the position, so a drag
moves the pan offset by exactly the cumulative displacement (last position
minus the position recorded at the press); motion with the flag clear and
the left release leave the pan offset unchanged. -/
theorem dragPanAccumulates (imgs : List Image) (bufOk : Bool) (st : ViewState)
    (btn : MouseButton) (x y : Int) (ps : List Point) :
    (loopStep imgs bufOk st (.mouseEv .dirPress .left x y) =
       .cont { st with pan := true, mouse := ⟨x, y⟩ }) ∧
    (st.pan = true →
       loopStep imgs bufOk st (.mouseEv .dirNone btn x y) =
         .cont { st with orig := st.orig + (Point.mk x y - st.mouse),
                         mouse := ⟨x, y⟩ }) ∧
    (st.pan = false →
       loopStep imgs bufOk st (.mouseEv .dirNone btn x y) = .cont st) ∧
    (loopStep imgs bufOk st (.mouseEv .dirRelease .left x y) =
       .cont { st with pan := false, mouse := ⟨0, 0⟩ }) ∧
    (st.pan = true →
       runLoop imgs bufOk st (ps.map fun p => .mouseEv .dirNone btn p.x p.y) =
         { st with orig := st.orig + (ps.getLastD st.mouse - st.mouse),
                   mouse := ps.getLastD st.mouse }) := by
  refine ⟨?_, fun h => ?_, fun h => ?_, ?_,
    fun h => runLoop_drag imgs bufOk btn ps st h⟩
  · simp [loopStep]
  · simp [loopStep, h]
  · simp [loopStep, h]
  · simp [loopStep]

/-- Witness for C10: a two-motion drag from the recorded position (1, 1)
moves the pan offset by the cumulative displacement to the last position. -/
theorem dragPanAccumulates_witness :
    (stDrag.pan = true) ∧
    (runLoop [img1] true stDrag
       ([Point.mk 4 5, Point.mk 6 9].map fun p =>
          .mouseEv .dirNone .left p.x p.y) =
       { stDrag with
           orig := stDrag.orig +
             ([Point.mk 4 5, Point.mk 6 9].getLastD stDrag.mouse -
               stDrag.mouse),
           mouse := [Point.mk 4 5, Point.mk 6 9].getLastD stDrag.mouse }) :=
  ⟨rfl,
   (dragPanAccumulates [img1] true stDrag .left 0 0
      [⟨4, 5⟩, ⟨6, 9⟩]).2.2.2.2 rfl⟩

/-- C3 counterexample: with the profile flag set and profile-file creation
failing, the program fatally exits even though every image decodes and
window/buffer creation succeed — refuting "aborts if and only if zero images
remain decodable or window/buffer creation fails". -/
theorem profileFatal_counterexample :
    runStartup id decodeOkW envProfileFail = .fatalExit ∧
    (decodeImages id decodeOkW
        (findFiles envProfileFail.fsys envProfileFail.args)).2 ≠ [] ∧
    envProfileFail.newWindowOk = true ∧
    envProfileFail.newBufferOk = true :=
  ⟨by decide, by decide, rfl, rfl⟩

/-- C3 (amended): the program fatally exits iff the width or height flag is
zero, or the profile flag is set and creating the profile file fails, or —
with a non-empty argument list — zero images remain decodable or
window/buffer creation fails; and an event-loop iteration fatally exits iff
it handles a size event and buffer re-creation fails.  In every other
situation it continues (an empty argument list usage-exits; Escape/Q quits
normally). -/
theorem abortExactConditions :
    (∀ (basename : String → String) (decode : String → DecodeOutcome)
       (env : Env),
       runStartup basename decode env = .fatalExit ↔
         ((env.flagWidth = 0 ∨ env.flagHeight = 0) ∨
          (env.flagProfile.length > 0 ∧ env.profileCreateOk = false) ∨
          (env.args ≠ [] ∧
            ((decodeImages basename decode
                (findFiles env.fsys env.args)).2 = [] ∨
             env.newWindowOk = false ∨ env.newBufferOk = false)))) ∧
    (∀ (imgs : List Image) (bufOk : Bool) (st : ViewState) (e : Event),
       loopStep imgs bufOk st e = .fatal ↔ (e = .sizeEv ∧ bufOk = false)) := by
  constructor
  · intro b d env
    simp only [runStartup]
    by_cases h1 : env.flagWidth = 0 ∨ env.flagHeight = 0
    · simp [h1]
    · by_cases h2 : env.flagProfile.length > 0 ∧ env.profileCreateOk = false
      · simp [h1, h2]
      · by_cases h3 : env.args.length = 0
        · simp [h1, h2, h3, List.length_eq_zero.mp h3]
        · have hne : env.args ≠ [] := fun hh => h3 (by simp [hh])
          by_cases h4 :
              (decodeImages b d (findFiles env.fsys env.args)).2.length = 0
          · simp [h1, h2, h3, hne, h4, List.length_eq_zero.mp h4]
          · by_cases h5 : env.newWindowOk = false
            · simp [h1, h2, h3, hne, h4, h5, ← List.length_eq_zero]
            · by_cases h6 : env.newBufferOk = false
              · simp [h1, h2, h3, hne, h4, h5, h6, ← List.length_eq_zero]
              · simp [h1, h2, h3, hne, h4, h5, h6, ← List.length_eq_zero]
  · intro imgs bufOk st e
    cases e with
    | mouseEv dir button x y =>
      cases dir <;> simp only [loopStep] <;>
        first
        | (split <;> simp)
        | simp
    | keyEv code dir =>
      cases code <;> simp only [loopStep] <;>
        first
        | (split <;> simp)
        | simp
    | paintEv b => simp [loopStep]
    | sizeEv =>
      simp only [loopStep]
      split <;> simp_all
    | uploadedEv => simp [loopStep]
    | errorEv => simp [loopStep]
    | otherEv => simp [loopStep]

/-- C4 counterexample: with the width flag zero the program exits via
`log.Fatal`, which prints the fatal log message and not the usage message —
refuting "prints the usage message" for the zero width/height case. -/
theorem widthZeroFatal_counterexample :
    runStartup id decodeOkW envWidthZero = .fatalExit ∧
    StartOutcome.fatalExit ≠ StartOutcome.usageExit :=
  ⟨by decide, by decide⟩

/-- C4 (amended): with no file arguments (and non-zero width/height and a
usable profile flag) the program prints the usage message and exits with a
non-zero status; with a zero width or height flag it logs a fatal message
and exits with a non-zero status without printing the usage message. -/
theorem usageAndFlagFatalExits (basename : String → String)
    (decode : String → DecodeOutcome) (env : Env) :
    (env.flagWidth = 0 ∨ env.flagHeight = 0 →
       runStartup basename decode env = .fatalExit) ∧
    (¬(env.flagWidth = 0 ∨ env.flagHeight = 0) →
     ¬(env.flagProfile.length > 0 ∧ env.profileCreateOk = false) →
     env.args = [] →
     runStartup basename decode env = .usageExit) := by
  constructor
  · intro h
    simp [runStartup, h]
  · intro h1 h2 h3
    simp [runStartup, h1, h2, h3]

/-- Witness for C4 (amended) at the two concrete environments. -/
theorem usageAndFlagFatalExits_witness :
    ((envWidthZero.flagWidth = 0 ∨ envWidthZero.flagHeight = 0) ∧
       runStartup id decodeOkW envWidthZero = .fatalExit) ∧
    (¬(envNoArgs.flagWidth = 0 ∨ envNoArgs.flagHeight = 0) ∧
     ¬(envNoArgs.flagProfile.length > 0 ∧ envNoArgs.profileCreateOk = false) ∧
     envNoArgs.args = [] ∧
     runStartup id decodeOkW envNoArgs = .usageExit) :=
  ⟨⟨by decide,
    (usageAndFlagFatalExits id decodeOkW envWidthZero).1 (by decide)⟩,
   ⟨by decide, by decide, rfl,
    (usageAndFlagFatalExits id decodeOkW envNoArgs).2 (by decide) (by decide)
      rfl⟩⟩

/-- C7: the CLI defines exactly the six flags -v, -width, -height,
-auto-resize, -increment and -profile, and accepts one or more positional
arguments: with valid flag values, a startup usage-exits exactly when the
positional argument list is empty. -/
theorem cliFlagsAndPositionalArgs :
    iviewFlags.map FlagSpec.name =
      ["v", "width", "height", "auto-resize", "increment", "profile"] ∧
    (∀ (basename : String → String) (decode : String → DecodeOutcome)
       (env : Env),
       runStartup basename decode env = .usageExit ↔
         (¬(env.flagWidth = 0 ∨ env.flagHeight = 0) ∧
          ¬(env.flagProfile.length > 0 ∧ env.profileCreateOk = false) ∧
          env.args = [])) := by
  constructor
  · rfl
  · intro b d env
    simp only [runStartup]
    by_cases h1 : env.flagWidth = 0 ∨ env.flagHeight = 0
    · simp [h1]
    · by_cases h2 : env.flagProfile.length > 0 ∧ env.profileCreateOk = false
      · simp [h1, h2]
      · by_cases h3 : env.args.length = 0
        · simp [h1, h2, h3, List.length_eq_zero.mp h3]
        · have hne : env.args ≠ [] := fun hh => h3 (by simp [hh])
          rw [if_neg h1, if_neg h2, if_neg h3]
          constructor
          · intro hcon
            exfalso
            revert hcon
            split
            · simp
            · split
              · simp
              · split <;> simp
          · intro hcon
            exact absurd hcon.2.2 hne
